import Mathlib

/-!
Shallow embedding of the predictive-maintenance backend (CRAC_MTTO_V2).

The embedding covers the components the verified claims are about:

* `MLService.detect_failures`, `MLService.build_intervals`,
  `MLService._get_last_critical_alarm_time`, `MLService.train_model`,
  `MLService.predict_risk`, `MLService.get_survival_curve`
  (backend/app/services/ml_service.py);
* `DataPreloadService.refresh_all_data` and its cache
  (backend/app/services/preload_service.py);
* `SchedulerService._run_task` (backend/app/services/scheduler_service.py).

Modelling conventions:
* timestamps are integers (seconds); hour conversions divide by 3600 in `Rat`;
* `NaN` / missing values are `Option`; machine floats are modelled by exact `Rat`;
* the survival-forest backend is an external collaborator and is treated as an
  opaque function from a feature vector to a survival step function;
* pandas `DataFrame`s are lists of typed rows.
-/

/-! ## String utilities (model of Python case-insensitive substring / regex search) -/

/-- Lowercased character list of a string (models `case=False` matching). -/
def lowerChars (s : String) : List Char := s.data.map Char.toLower

/-- `startsWithL hay needle`: `needle` is a literal prefix of `hay`. -/
def startsWithL : List Char → List Char → Bool
  | _, [] => true
  | [], _ :: _ => false
  | a :: as, b :: bs => a == b && startsWithL as bs

/-- `containsSub hay needle`: `needle` occurs in `hay` as a contiguous substring. -/
def containsSub : List Char → List Char → Bool
  | [], needle => needle.isEmpty
  | a :: as, needle => startsWithL (a :: as) needle || containsSub as needle

/-- Case-insensitive substring test (models `str.contains(..., case=False)` for a
pattern with no active regex metacharacters). -/
def containsCI (hay pat : String) : Bool :=
  containsSub (lowerChars hay) (lowerChars pat)

/-! ## FailureDetector: `MLService.detect_failures` -/

/-- The fixed keyword list of `detect_failures` (ml_service.py lines 38-45), verbatim. -/
def keywords : List String :=
  [ "Low Superheat Critical",
    "Compressor High Head Condition",
    "Returned from Idle Due To Leak Detected",
    "Compressor Drive Failure",
    "El valor de \x27Humedad de suministro\x27 (93 % RH) ha sido muy alto durante mucho tiempo",
    "El valor de \x27Humedad de suministro\x27 (94 % RH) ha sido muy alto durante mucho tiempo" ]

/-- The fixed exclusion list of `detect_failures` (ml_service.py line 47), verbatim. -/
def exclude_words : List String :=
  ["cleared", "corrected", "restored", "ok", "normal", "return to normal", "solucionado"]

/-- `matchesAny d pats`: `d` contains some pattern of `pats` (case-insensitively). -/
def matchesAny (d : String) (pats : List String) : Bool :=
  pats.any (fun p => containsCI d p)

/-- The source joins the keywords with "|" and hands the result to
`Series.str.contains`, which interprets it as a REGEX.  In that regex the
parenthesis characters occurring inside two keywords are group metacharacters:
the group matches its contents literally but the "(" and ")" characters
themselves are not part of the matched text.  For this particular pattern
(an alternation of otherwise-literal strings) regex search is therefore
exactly a substring search for the keyword with its parentheses removed. -/
def regexLiteralOf (k : String) : String :=
  ⟨k.data.filter (fun c => !(c == '(' || c == ')'))⟩

/-- One row of raw alarm data (columns used by the services under test). -/
structure AlarmRow where
  dispositivo : String
  fecha : Int
  descripcion : Option String
  severidad : Int
  serial : Option String
deriving DecidableEq, Repr

/-- Classification of one description by `detect_failures` (ml_service.py lines 52-55):
matched by the joined keyword regex and not matched by the joined exclusion regex.
A missing description (pandas `NaN`, stringified to "nan" by `astype(str)`)
matches no keyword, hence is classified `false`. -/
def detect_failure_row (desc : Option String) : Bool :=
  match desc with
  | none => false
  | some d => matchesAny d (keywords.map regexLiteralOf) && !(matchesAny d exclude_words)

/-- `MLService.detect_failures` (ml_service.py lines 24-57).  The severity
threshold argument `sev_thr` is accepted but never read by the source body. -/
def detect_failures (df : List AlarmRow) (sev_thr : Option Int) : List Bool :=
  df.map (fun r => detect_failure_row r.descripcion)

/-- Modelled from the spec: the claim's wording of the classification rule —
the description contains some keyword *as a literal substring* (and no
exclusion word).  Kept separate from `detect_failure_row`, which translates
the source's regex behaviour, so the two can be compared. -/
def detect_failure_row_spec (desc : Option String) : Bool :=
  match desc with
  | none => false
  | some d => matchesAny d keywords && !(matchesAny d exclude_words)

/-- The literal alarm text that keyword 5 of the source list was copied from. -/
def humidity_alarm_text : String :=
  "El valor de \x27Humedad de suministro\x27 (93 % RH) ha sido muy alto durante mucho tiempo"

/-! ## RefreshScheduler: `SchedulerService._run_task` -/

/-- `(now + timedelta(hours=1)).replace(minute=0, second=0, microsecond=0)`
(scheduler_service.py line 81), with wall-clock times counted in whole minutes. -/
def next_hour (t : Nat) : Nat := (t / 60 + 1) * 60

/-- Start times of the successive executions performed by the `_run_task` loop
(scheduler_service.py lines 77-101) for a task registered at minute `t0` with
`run_immediately = False`.  `interval` is read from the task configuration
(line 64) but the wait at lines 80-87 targets only the next hour boundary, so
`interval` does not influence the schedule; `dur k` is the wall-clock duration
of the k-th execution of the job body. -/
def run_times (interval : Nat) (t0 : Nat) (dur : Nat → Nat) : Nat → Nat
  | 0 => next_hour t0
  | k + 1 => next_hour (run_times interval t0 dur k + dur k)

/-! ## IntervalBuilder: `MLService.build_intervals` (ml_service.py lines 59-224) -/

/-- One survival-interval row appended to `recs` by `build_intervals`.  The
source's `end` column is called `stop` here because `end` is a Lean keyword. -/
structure IntervalRec where
  unit : String
  start : Int
  stop : Int
  duration_hours : Rat
  event : Nat
  total_alarms : Nat
  alarms_last_24h : Nat
  time_since_last_alarm_h : Option Rat
  current_time_elapsed : Rat
  last_critical_time : Option Int
  last_maintenance_time : Option Int
deriving DecidableEq, Repr

/-- Comparison used by `df.sort_values([id_col, time_col])`: by device
identifier, then by timestamp. -/
def rowLe (a b : AlarmRow × Bool) : Bool :=
  if a.1.dispositivo = b.1.dispositivo then decide (a.1.fecha ≤ b.1.fecha)
  else decide (a.1.dispositivo < b.1.dispositivo)

/-- `rowLe` as a relation, for the sort. -/
def RowLeP (a b : AlarmRow × Bool) : Prop := rowLe a b = true

instance : DecidableRel RowLeP := fun a b => Bool.decEq (rowLe a b) true

instance : IsTrans (AlarmRow × Bool) RowLeP where
  trans := by
    intro a b c h1 h2
    unfold RowLeP rowLe at h1 h2 ⊢
    by_cases hab : a.1.dispositivo = b.1.dispositivo <;>
      by_cases hbc : b.1.dispositivo = c.1.dispositivo
    · rw [if_pos hab] at h1
      rw [if_pos hbc] at h2
      rw [if_pos (hab.trans hbc)]
      exact decide_eq_true (le_trans (of_decide_eq_true h1) (of_decide_eq_true h2))
    · rw [if_pos hab] at h1
      rw [if_neg hbc] at h2
      rw [if_neg (fun h => hbc (hab.symm.trans h)), hab]
      exact h2
    · rw [if_neg hab] at h1
      rw [if_pos hbc] at h2
      rw [if_neg (fun h => hab (h.trans hbc.symm)), ← hbc]
      exact h1
    · rw [if_neg hab] at h1
      rw [if_neg hbc] at h2
      have hac : a.1.dispositivo < c.1.dispositivo :=
        lt_trans (of_decide_eq_true h1) (of_decide_eq_true h2)
      rw [if_neg (ne_of_lt hac)]
      exact decide_eq_true hac

instance : IsTotal (AlarmRow × Bool) RowLeP where
  total := by
    intro a b
    unfold RowLeP rowLe
    by_cases hab : a.1.dispositivo = b.1.dispositivo
    · rw [if_pos hab, if_pos hab.symm]
      rcases le_total a.1.fecha b.1.fecha with h | h
      · exact Or.inl (decide_eq_true h)
      · exact Or.inr (decide_eq_true h)
    · rw [if_neg hab, if_neg (Ne.symm hab)]
      rcases lt_or_gt_of_ne hab with h | h
      · exact Or.inl (decide_eq_true h)
      · exact Or.inr (decide_eq_true h)

/-- The sorted dataframe (`df.sort_values([id_col, time_col])`, ml_service.py
line 76), modelled by a stable sort under the device-then-time comparison. -/
def sortRows (rows : List (AlarmRow × Bool)) : List (AlarmRow × Bool) :=
  List.insertionSort RowLeP rows

/-- The rows of device `u`, in the order in which the sorted dataframe presents
them to the per-device loop of `build_intervals`. -/
def deviceRows (rows : List (AlarmRow × Bool)) (u : String) : List (AlarmRow × Bool) :=
  (sortRows rows).filter (fun rb => rb.1.dispositivo == u)

/-- `MLService._get_last_critical_alarm_time` (ml_service.py lines 212-224),
applied to the rows of one device (`df[df[id_col] == device]`): latest
timestamp among alarms with severity ≥ `sev_thr`, falling back to the device's
latest alarm overall when none qualifies, and to `None` for an empty group. -/
def get_last_critical_alarm_time (sev_thr : Option Int)
    (g : List (AlarmRow × Bool)) : Option Int :=
  if g.isEmpty then none
  else
    let critical : List (AlarmRow × Bool) := match sev_thr with
      | some thr => g.filter (fun rb => decide (thr ≤ rb.1.severidad))
      | none => g
    match (critical.map (fun rb => rb.1.fecha)).max? with
    | some t => some t
    | none => (g.map (fun rb => rb.1.fecha)).max?

/-- The last-maintenance lookup of `build_intervals` (ml_service.py lines
100-107): skipped entirely when the maintenance dict is empty (a falsy dict in
Python), otherwise keyed by the serial of the device's first row. -/
def last_maintenance_of (maint : List (String × Int))
    (g : List (AlarmRow × Bool)) : Option Int :=
  if maint.isEmpty then none
  else
    match g with
    | [] => none
    | rb :: _ =>
      match rb.1.serial with
      | none => none
      | some sn => (maint.find? (fun p => p.1 == sn)).map (fun p => p.2)

/-- The `current_time_elapsed` computation of `build_intervals` (ml_service.py
lines 112-123): hours from the later of last maintenance and last critical
alarm to `now`, with single-source fallbacks and `0.0` when neither exists. -/
def current_elapsed_of (now : Int) (lm lc : Option Int) : Rat :=
  match lm, lc with
  | some m, some c => ((now - max m c : Int) : Rat) / 3600
  | some m, none => ((now - m : Int) : Rat) / 3600
  | none, some c => ((now - c : Int) : Rat) / 3600
  | none, none => 0

/-- `current_time_elapsed` of one device for one build pass. -/
def device_cte (now : Int) (sev_thr : Option Int) (maint : List (String × Int))
    (g : List (AlarmRow × Bool)) : Rat :=
  current_elapsed_of now (last_maintenance_of maint g)
    (get_last_critical_alarm_time sev_thr g)

/-- `times[i]` on the per-device timestamp array. -/
def timeAt (times : List Int) (i : Nat) : Int := times.getD i 0

/-- `np.sum((times >= start - 24h) & (times < start))` (ml_service.py lines
161-162 and 191-192), with the 24-hour lookback in seconds. -/
def alarms_last_24h_at (times : List Int) (start_time : Int) : Nat :=
  times.countP (fun t => decide (start_time - 86400 ≤ t) && decide (t < start_time))

/-- Per-device constants threaded through the interval-emitting loop. -/
structure DeviceCtx where
  unit : String
  times : List Int
  now : Int
  cte : Rat
  lct : Option Int
  lmt : Option Int
deriving Repr

/-- The `event=1` row emitted for the failure at index `f` with current
boundary `s` (ml_service.py lines 156-183). -/
def fail_rec (ctx : DeviceCtx) (s f : Nat) : IntervalRec :=
  let st := timeAt ctx.times s
  let en := timeAt ctx.times f
  { unit := ctx.unit, start := st, stop := en,
    duration_hours := ((en - st : Int) : Rat) / 3600,
    event := 1,
    total_alarms := f - s,
    alarms_last_24h := alarms_last_24h_at ctx.times st,
    time_since_last_alarm_h :=
      if s = 0 then none
      else some (((st - timeAt ctx.times (s - 1) : Int) : Rat) / 3600),
    current_time_elapsed := ctx.cte,
    last_critical_time := ctx.lct,
    last_maintenance_time := ctx.lmt }

/-- The trailing censored row emitted after the failure walk (ml_service.py
lines 187-208), for a device with `n` events and final boundary `s`. -/
def trailing_rec (ctx : DeviceCtx) (n s : Nat) : IntervalRec :=
  let st := timeAt ctx.times s
  { unit := ctx.unit, start := st, stop := ctx.now,
    duration_hours := ((ctx.now - st : Int) : Rat) / 3600,
    event := 0,
    total_alarms := n - s,
    alarms_last_24h := alarms_last_24h_at ctx.times st,
    time_since_last_alarm_h := some (((ctx.now - timeAt ctx.times (n - 1) : Int) : Rat) / 3600),
    current_time_elapsed := ctx.cte,
    last_critical_time := ctx.lct,
    last_maintenance_time := ctx.lmt }

/-- The single censored row emitted for a device with no failure-flagged
events (ml_service.py lines 128-147); note the hard-coded `alarms_last_24h = 0`. -/
def no_fail_rec (ctx : DeviceCtx) (n : Nat) : IntervalRec :=
  let st := timeAt ctx.times 0
  { unit := ctx.unit, start := st, stop := ctx.now,
    duration_hours := ((ctx.now - st : Int) : Rat) / 3600,
    event := 0,
    total_alarms := n,
    alarms_last_24h := 0,
    time_since_last_alarm_h := some (((ctx.now - timeAt ctx.times (n - 1) : Int) : Rat) / 3600),
    current_time_elapsed := ctx.cte,
    last_critical_time := ctx.lct,
    last_maintenance_time := ctx.lmt }

/-- The failure walk of `build_intervals` (ml_service.py lines 150-208): one
`event=1` row per failure index strictly past the boundary (a failure index at
or before the boundary only moves the boundary), then the trailing censored
row if the final boundary is a valid index. -/
def emit_intervals (ctx : DeviceCtx) (n : Nat) : List Nat → Nat → List IntervalRec
  | [], s => if s < n then [trailing_rec ctx n s] else []
  | f :: rest, s =>
    if f ≤ s then emit_intervals ctx n rest f
    else fail_rec ctx s f :: emit_intervals ctx n rest f

/-- `np.where(is_fail)[0]` (ml_service.py line 126): the ascending indices of
the failure-flagged rows of one device. -/
def failIndices (g : List (AlarmRow × Bool)) : List Nat :=
  (List.range g.length).filter (fun i => ((g.get? i).map (fun rb => rb.2)).getD false)

/-- The body of `build_intervals`'s per-device loop (ml_service.py lines
80-208) on the device's sorted rows `g`. -/
def build_intervals_device (now : Int) (sev_thr : Option Int)
    (maint : List (String × Int)) (u : String)
    (g : List (AlarmRow × Bool)) : List IntervalRec :=
  if g.length = 0 then []
  else
    let ctx : DeviceCtx :=
      { unit := u, times := g.map (fun rb => rb.1.fecha), now := now,
        cte := device_cte now sev_thr maint g,
        lct := get_last_critical_alarm_time sev_thr g,
        lmt := last_maintenance_of maint g }
    match failIndices g with
    | [] => [no_fail_rec ctx g.length]
    | f :: rest => emit_intervals ctx g.length (f :: rest) 0

/-- `MLService.build_intervals` (ml_service.py lines 59-210).  `now` stands for
`pd.Timestamp.now()`; the dataframe is sorted by `[id_col, time_col]` and
grouped by device, groups visited in ascending device order as pandas
`groupby` does. -/
def build_intervals (now : Int) (sev_thr : Option Int) (maint : List (String × Int))
    (rows : List (AlarmRow × Bool)) : List IntervalRec :=
  let units := ((sortRows rows).map (fun rb => rb.1.dispositivo)).dedup
  units.flatMap (fun u => build_intervals_device now sev_thr maint u
    ((sortRows rows).filter (fun rb => rb.1.dispositivo == u)))

/-- Concrete alarm stream for exercising C2 (the spec §8 worked example:
five events, failures at indices 2 and 4). -/
def c2rows : List (AlarmRow × Bool) :=
  [ (⟨"D", 0, none, 3, none⟩, false), (⟨"D", 3600, none, 3, none⟩, false),
    (⟨"D", 7200, none, 8, none⟩, true), (⟨"D", 10800, none, 3, none⟩, false),
    (⟨"D", 14400, none, 8, none⟩, true) ]

/-- Concrete alarm stream (out of order, two devices) for exercising C8. -/
def c8rows : List (AlarmRow × Bool) :=
  [ (⟨"A", 100, none, 7, some "sA"⟩, true), (⟨"A", 50, none, 2, some "sA"⟩, false),
    (⟨"B", 200, none, 9, none⟩, true) ]

/-- Concrete alarm stream for exercising C9. -/
def c9rows : List (AlarmRow × Bool) :=
  [ (⟨"X", 1000, none, 4, some "s1"⟩, false), (⟨"X", 4600, none, 2, some "s1"⟩, true) ]

/-- An all-zero placeholder row, used only as a `headD` default. -/
def dummy_rec : IntervalRec := ⟨"", 0, 0, 0, 0, 0, 0, none, 0, none, none⟩

/-! ## RiskEngine: `MLService.train_model`, `predict_risk`, `get_survival_curve` -/

/-- The survival step function returned by the external model backend
(`model.predict_survival_function(X)[0]`): breakpoint/probability pairs
(`surv_func.x` ascending, `surv_func.y`). -/
structure StepFn where
  pts : List (Rat × Rat)
deriving Repr

/-- An opaque trained survival model: the external backend's mapping from one
feature vector (entries may be missing/NaN) to a survival step function. -/
def SurvModel := List (Option Rat) → StepFn

/-- The fixed feature list `self.features` (ml_service.py line 16). -/
def features : List String :=
  ["total_alarms", "alarms_last_24h", "time_since_last_alarm_h"]

/-- `np.median` of a column's non-missing values (`SimpleImputer` statistic):
middle element of the sorted values, or the mean of the two middles. -/
def median (l : List Rat) : Rat :=
  let s := List.insertionSort (· ≤ ·) l
  if l.length = 0 then 0
  else if l.length % 2 = 1 then s.getD (l.length / 2) 0
  else (s.getD (l.length / 2 - 1) 0 + s.getD (l.length / 2) 0) / 2

/-- The per-column median-imputed feature rows: the matrix the imputer
produces when it keeps all three columns.  Of the three feature columns only
`time_since_last_alarm_h` can hold missing values, so per-column median
imputation only fills that column. -/
def imputedRows (intervals : List IntervalRec) : List (List Rat) :=
  let med3 := median ((intervals.map (fun r => r.time_since_last_alarm_h)).filterMap id)
  intervals.map (fun r =>
    [ (r.total_alarms : Rat), (r.alarms_last_24h : Rat),
      (r.time_since_last_alarm_h).getD med3 ])

/-- `SimpleImputer(strategy='median').fit_transform` followed by the
`pd.DataFrame(X_imputed, columns=self.features, index=X_df.index)`
reconstruction (ml_service.py lines 243-248).  `total_alarms` and
`alarms_last_24h` are integer columns and never missing, but when
`time_since_last_alarm_h` is missing in EVERY row the imputer DROPS that
all-missing column (its default `keep_empty_features=False`), the imputed
array has only two columns, and rebuilding a DataFrame with the three feature
names raises a `ValueError` — modelled as `.error`.  (On an empty input the
imputer itself raises; `train_model` never reaches this point with an empty
input because of its length check.) -/
def imputedMatrix (intervals : List IntervalRec) : Except String (List (List Rat)) :=
  if ∀ r ∈ intervals, r.time_since_last_alarm_h = none then
    .error "Shape of passed values is (n, 2), indices imply (n, 3)"
  else .ok (imputedRows intervals)

/-- Mean of a list of rationals. -/
def listMean (l : List Rat) : Rat := l.sum / (l.length : Rat)

/-- Population variance; `np.std(times) == 0` (ml_service.py line 265) is
equivalent to zero variance in exact arithmetic. -/
def listVariance (l : List Rat) : Rat :=
  (l.map (fun x => (x - listMean l) ^ 2)).sum / (l.length : Rat)

/-- `MLService.train_model` (ml_service.py lines 226-273), with the external
`RandomSurvivalForest` fit supplied as `fit`.  On the typed `IntervalRec`
every feature column exists, so the explicit missing-column check of lines
239-241 cannot fire; the imputation step (lines 243-248) runs BEFORE the
event/sample/variance checks and can itself raise (see `imputedMatrix`).
Each `raise ValueError` is an `.error`; on success the pair
`(fitted model, self.features)` is returned. -/
def train_model (fit : List (List Rat) → List (Bool × Rat) → SurvModel)
    (intervals : List IntervalRec) : Except String (SurvModel × List String) :=
  if intervals.length = 0 then .error "No hay intervalos para entrenar"
  else
    match imputedMatrix intervals with
    | .error e => .error e
    | .ok X =>
      let events := intervals.map (fun r => r.event != 0)
      let times := intervals.map (fun r => r.duration_hours)
      let n_events := (events.filter id).length
      if n_events = 0 then .error "No hay eventos para entrenar (todos censurados)"
      else if n_events < 3 then .error "Muy pocos eventos, minimo 3 requeridos"
      else if intervals.length < 10 then .error "Muy pocas muestras, minimo 10 requeridas"
      else if listVariance times = 0 then .error "No hay variabilidad en tiempos de supervivencia"
      else .ok (fit X (events.zip times), features)

/-- The scan of `np.interp` through consecutive breakpoints, entered knowing
the query `t` is at or past the first breakpoint: linear interpolation inside
the bracketing segment, the last `y` at or beyond the final breakpoint. -/
def interpSegments (t : Rat) : List (Rat × Rat) → Rat
  | [] => 0
  | [(_, y)] => y
  | (x1, y1) :: (x2, y2) :: rest =>
    if t < x2 then y1 + (y2 - y1) * (t - x1) / (x2 - x1)
    else interpSegments t ((x2, y2) :: rest)

/-- `np.interp(t, xs, ys, left=left, right=ys[-1])` as called by the source
(ml_service.py lines 319-320, 330-331, 368-369): `left` before the first
breakpoint, then `interpSegments`. -/
def npInterp (t : Rat) (pts : List (Rat × Rat)) (left : Rat) : Rat :=
  match pts with
  | [] => left
  | (x0, _) :: _ => if t < x0 then left else interpSegments t pts

/-- `risk = 1 − survival_prob` at a sampled time (ml_service.py line 321). -/
def riskAt (sf : StepFn) (t : Rat) : Rat := 1 - npInterp t sf.pts 1

/-- `np.linspace(a, b, n)` with the endpoint included. -/
def linspace (a b : Rat) (n : Nat) : List Rat :=
  if n = 0 then []
  else if n = 1 then [a]
  else (List.range n).map (fun (i : Nat) => a + (b - a) * (i : Rat) / ((n - 1 : Nat) : Rat))

/-- The result dict of `predict_risk` (ml_service.py lines 324-328, 332-336). -/
structure Prediction where
  time_to_threshold : Rat
  risk : Rat
  current_time : Rat
deriving DecidableEq, Repr

/-- The feature vector assembled by `predict_risk` (ml_service.py lines
301-306): missing values are replaced by `0.0` here. -/
def predict_feature_row (r : IntervalRec) : List (Option Rat) :=
  [some (r.total_alarms : Rat), some (r.alarms_last_24h : Rat),
    some ((r.time_since_last_alarm_h).getD 0)]

/-- The feature vector assembled by `get_survival_curve` (ml_service.py line
360): values are passed through unguarded, so a missing value stays missing. -/
def curve_feature_row (r : IntervalRec) : List (Option Rat) :=
  [some (r.total_alarms : Rat), some (r.alarms_last_24h : Rat),
    r.time_since_last_alarm_h]

/-- The early-return loop of `predict_risk` (ml_service.py lines 318-328):
the first sampled time whose risk reaches the threshold. -/
def firstThresholdHit (sf : StepFn) (thr : Rat) : List Rat → Option Rat
  | [] => none
  | t :: rest => if thr ≤ riskAt sf t then some t else firstThresholdHit sf thr rest

/-- `MLService.predict_risk` (ml_service.py lines 275-336) for a trained
`model`.  The unknown-device and empty-group early returns (lines 292-297)
both collapse to the `getLast?` miss; `latest_interval = iloc[-1]`. -/
def predict_risk (model : SurvModel) (intervals : List IntervalRec)
    (device : String) (risk_threshold : Rat) (max_time : Rat) : Option Prediction :=
  match (intervals.filter (fun r => r.unit == device)).getLast? with
  | none => none
  | some latest =>
    let sf := model (predict_feature_row latest)
    let current_time := latest.current_time_elapsed
    let time_points := linspace current_time (current_time + max_time) 500
    match firstThresholdHit sf risk_threshold time_points with
    | some t => some ⟨t - current_time, riskAt sf t, current_time⟩
    | none => some ⟨max_time, riskAt sf (current_time + max_time), current_time⟩

/-- One point of the survival curve (ml_service.py line 373). -/
structure CurvePoint where
  tiempo_dias : Rat
  riesgo_porcentaje : Rat
deriving DecidableEq, Repr

/-- `MLService.get_survival_curve` (ml_service.py lines 338-375) for a trained
`model`: `n_points` uniform samples of `[0, max_time]`, risks evaluated at the
device's current elapsed time plus the sample, reported in days and percent. -/
def get_survival_curve (model : SurvModel) (intervals : List IntervalRec)
    (device : String) (max_time : Rat) (n_points : Nat) : Option (List CurvePoint) :=
  match (intervals.filter (fun r => r.unit == device)).getLast? with
  | none => none
  | some latest =>
    let sf := model (curve_feature_row latest)
    let current_time := latest.current_time_elapsed
    let plot_times := linspace 0 max_time n_points
    some (plot_times.map (fun t =>
      ⟨t / 24, (1 - npInterp (t + current_time) sf.pts 1) * 100⟩))

/-- Concrete training set for exercising C4: ten rows, three events, varying
durations, `time_since_last_alarm_h` present on the even rows; and a stub
external fit. -/
def c4fit : List (List Rat) → List (Bool × Rat) → SurvModel :=
  fun _ _ => fun _ => ⟨[(0, 1)]⟩

def c4intervals : List IntervalRec :=
  (List.range 10).map (fun (i : Nat) =>
    { unit := "T", start := 0, stop := 3600, duration_hours := (i : Rat),
      event := if i < 3 then 1 else 0, total_alarms := i, alarms_last_24h := 0,
      time_since_last_alarm_h := if i % 2 = 0 then some (i : Rat) else none,
      current_time_elapsed := 0,
      last_critical_time := none, last_maintenance_time := none })

/-- Ten rows, three events, varying durations — all three preconditions of the
original C4 claim hold — but `time_since_last_alarm_h` is missing in every
row, so the imputer drops that column and training raises. -/
def c4allmissing : List IntervalRec :=
  (List.range 10).map (fun (i : Nat) =>
    { unit := "T", start := 0, stop := 3600, duration_hours := (i : Rat),
      event := if i < 3 then 1 else 0, total_alarms := i, alarms_last_24h := 0,
      time_since_last_alarm_h := none, current_time_elapsed := 0,
      last_critical_time := none, last_maintenance_time := none })

/-- Concrete data for exercising C5: one device whose survival probability is
zero everywhere, so the very first sample reaches any threshold below 1. -/
def c5model : SurvModel := fun _ => ⟨[(0, 0)]⟩

def c5latest : IntervalRec := ⟨"d", 0, 0, 0, 0, 0, 0, none, 0, none, none⟩

def c5ivs : List IntervalRec := [c5latest]

/-- Concrete data for exercising C10: a trained model whose survival step
function is the single breakpoint `(0, 1/2)`. -/
def c10model : SurvModel := fun _ => ⟨[(0, 1 / 2)]⟩

def c10latest : IntervalRec := ⟨"d", 0, 0, 0, 0, 0, 0, none, 0, none, none⟩

def c10ivs : List IntervalRec := [c10latest]

/-! ## DataCache: `DataPreloadService` (preload_service.py) -/

/-- The `_cached_data` dict of `DataPreloadService` (preload_service.py lines
19-30); every entry starts as `None`. -/
structure CachedData where
  df_raw : Option (List AlarmRow)
  df_processed : Option (List (AlarmRow × Bool))
  intervals : Option (List IntervalRec)
  model : Option SurvModel
  features : Option (List String)
  maintenance_dict : Option (List (String × Int))
  brand_dict : Option (List (String × String))
  model_dict : Option (List (String × String))
  client_dict : Option (List (String × String))
  last_update : Option Int

/-- The initial `_cached_data`. -/
def initial_cache : CachedData :=
  ⟨none, none, none, none, none, none, none, none, none, none⟩

/-- The maintenance metadata produced by refresh step 3 (preload_service.py
lines 70-85); all four dicts are empty when PostgreSQL returns no data. -/
structure MttoData where
  maintenance_dict : List (String × Int)
  brand_dict : List (String × String)
  model_dict : List (String × String)
  client_dict : List (String × String)

/-- The external collaborators consumed by `refresh_all_data`, each able to
raise: BigQuery (combined with `completar_seriales`), `process_data`, the
PostgreSQL maintenance lookup, and the survival-forest fit. -/
structure Env where
  get_all_alarms : Except String (List AlarmRow)
  process_data : List AlarmRow → Except String (List AlarmRow)
  get_mantenimientos : List AlarmRow → Except String MttoData
  fit : List (List Rat) → List (Bool × Rat) → SurvModel
  sev_thr : Option Int

/-- The mutable state of `DataPreloadService`: the cache dict and the
`_is_updating` reentrancy flag. -/
structure PreState where
  cached : CachedData
  is_updating : Bool

/-- The body of `refresh_all_data`'s `try` block (preload_service.py lines
42-126): the external pulls in order, failure detection, interval
construction, and the training attempt whose `ValueError` is caught in-line
(lines 102-107) leaving `model = None, features = None`.  Produces the new
cache contents to publish, or the first raised error. -/
def run_pipeline (env : Env) (now : Int) : Except String CachedData :=
  match env.get_all_alarms with
  | .error e => .error e
  | .ok df_raw =>
    match env.process_data df_raw with
    | .error e => .error e
    | .ok df_processed =>
      match env.get_mantenimientos df_raw with
      | .error e => .error e
      | .ok mtto =>
        let flagged := df_processed.zip (detect_failures df_processed env.sev_thr)
        let intervals := build_intervals now env.sev_thr mtto.maintenance_dict flagged
        match train_model env.fit intervals with
        | .ok (m, fs) =>
          .ok { df_raw := some df_raw, df_processed := some flagged,
                intervals := some intervals, model := some m, features := some fs,
                maintenance_dict := some mtto.maintenance_dict,
                brand_dict := some mtto.brand_dict,
                model_dict := some mtto.model_dict,
                client_dict := some mtto.client_dict, last_update := some now }
        | .error _ =>
          .ok { df_raw := some df_raw, df_processed := some flagged,
                intervals := some intervals, model := none, features := none,
                maintenance_dict := some mtto.maintenance_dict,
                brand_dict := some mtto.brand_dict,
                model_dict := some mtto.model_dict,
                client_dict := some mtto.client_dict, last_update := some now }

/-- `DataPreloadService.refresh_all_data` (preload_service.py lines 33-133):
a no-op while `_is_updating` is set (lines 38-40); otherwise the pipeline runs
with the flag set, the outer `except` keeps the previous cache when an
external stage raises, and the `finally` clears the flag.  The second
component reports whether the pipeline body executed. -/
def refresh_all_data (env : Env) (now : Int) (s : PreState) : PreState × Bool :=
  if s.is_updating then (s, false)
  else
    match run_pipeline env now with
    | .ok c => ({ cached := c, is_updating := false }, true)
    | .error _ => ({ s with is_updating := false }, true)

/-- Stub external collaborators for the closed C7 instance. -/
def c7env : Env :=
  { get_all_alarms := .error "unavailable",
    process_data := fun _ => .error "unavailable",
    get_mantenimientos := fun _ => .error "unavailable",
    fit := fun _ _ => fun _ => ⟨[]⟩,
    sev_thr := none }

/-- Stub fit and environments for the closed C1 instances. -/
def c1fit : List (List Rat) → List (Bool × Rat) → SurvModel := fun _ _ => fun _ => ⟨[]⟩

def c1env : Env :=
  { get_all_alarms := .ok [],
    process_data := fun _ => .ok [],
    get_mantenimientos := fun _ => .ok ⟨[], [], [], []⟩,
    fit := c1fit,
    sev_thr := some 6 }

def c1errenv : Env :=
  { get_all_alarms := .error "bigquery down",
    process_data := fun _ => .ok [],
    get_mantenimientos := fun _ => .ok ⟨[], [], [], []⟩,
    fit := c1fit,
    sev_thr := none }

/-- A previously published snapshot (non-trivial `model` and `last_update`). -/
def c1prior : CachedData :=
  { df_raw := some [], df_processed := some [], intervals := some [],
    model := some (fun _ => ⟨[]⟩), features := some features,
    maintenance_dict := some [], brand_dict := some [], model_dict := some [],
    client_dict := some [], last_update := some 5 }

/-! ## Theorems -/

theorem next_hour_dvd (t : Nat) : 60 ∣ next_hour t := ⟨t / 60 + 1, Nat.mul_comm _ _⟩

theorem run_times_dvd (i t0 : Nat) (dur : Nat → Nat) (k : Nat) :
    60 ∣ run_times i t0 dur k := by
  cases k with
  | zero => exact next_hour_dvd t0
  | succ k => exact next_hour_dvd _

theorem next_hour_of_dvd {m : Nat} (h : 60 ∣ m) : next_hour m = m + 60 := by
  obtain ⟨q, rfl⟩ := h
  simp [next_hour, Nat.mul_div_cancel_left q (by norm_num : 0 < 60)]
  ring

theorem run_times_interval_irrelevant (i j t0 : Nat) (dur : Nat → Nat) (k : Nat) :
    run_times i t0 dur k = run_times j t0 dur k := by
  induction k with
  | zero => rfl
  | succ k ih => simp [run_times, ih]

/-- C6: `detect_failures` on the verbatim humidity-alarm text.  The
classification is identical for every severity threshold, but the record is
classified `false` by the code (the joined pattern is a regex in which the
keyword's parentheses are group metacharacters, so the keyword never matches
its own literal alarm text), whereas the claim's case-insensitive substring
rule (`detect_failure_row_spec`) classifies it `true`. -/
theorem c6_detect_failures_regex_vs_substring (sev1 sev2 : Option Int)
    (sevField : Int) (sn : Option String) :
    detect_failures [⟨"dev", 0, some humidity_alarm_text, sevField, sn⟩] sev1 =
      detect_failures [⟨"dev", 0, some humidity_alarm_text, sevField, sn⟩] sev2 ∧
    detect_failures [⟨"dev", 0, some humidity_alarm_text, sevField, sn⟩] sev1 = [false] ∧
    detect_failure_row_spec (some humidity_alarm_text) = true := by
  refine ⟨rfl, ?_, by decide⟩
  simp only [detect_failures, List.map]
  decide

/-- C3 counterexample: a job registered at 14:32 (minute 872 of the day) with
`intervalMinutes = 30` and `runImmediately = False` first runs at 15:00
(minute 900), but its second run is at 16:00 (minute 960) — the next hour
boundary — not 30 minutes after the previous run (15:30, minute 930). -/
theorem c3_counterexample :
    run_times 30 872 (fun _ => 0) 0 = 900 ∧
    run_times 30 872 (fun _ => 0) 1 = 960 ∧
    run_times 30 872 (fun _ => 0) 1 ≠ run_times 30 872 (fun _ => 0) 0 + 30 := by
  refine ⟨rfl, rfl, by decide⟩

/-- C3 (amended): for a job with `runImmediately = False`, the first execution
starts at the next wall-clock hour boundary after registration, and every
subsequent execution starts at the next hour boundary after the previous
execution finishes — 60 minutes after the previous start when the execution
takes no time — independent of the configured `intervalMinutes` (which only
feeds status reporting). -/
theorem c3_hour_aligned_schedule (i j t0 : Nat) (dur : Nat → Nat) (k : Nat) :
    run_times i t0 dur 0 = next_hour t0 ∧
    run_times i t0 dur k = run_times j t0 dur k ∧
    run_times i t0 (fun _ => 0) (k + 1) = run_times i t0 (fun _ => 0) k + 60 := by
  refine ⟨rfl, run_times_interval_irrelevant i j t0 dur k, ?_⟩
  show next_hour (run_times i t0 (fun _ => 0) k + 0) = _
  rw [Nat.add_zero, next_hour_of_dvd (run_times_dvd i t0 (fun _ => 0) k)]

/-! ### Ordering facts about the sorted, grouped dataframe -/

theorem sorted_rowLe (rows : List (AlarmRow × Bool)) :
    (sortRows rows).Pairwise RowLeP :=
  List.sorted_insertionSort RowLeP rows

theorem deviceRows_unit (rows : List (AlarmRow × Bool)) (u : String) :
    ∀ rb ∈ deviceRows rows u, rb.1.dispositivo = u := by
  intro rb hrb
  have := List.of_mem_filter hrb
  simpa using this

theorem deviceRows_sublist_rows (rows : List (AlarmRow × Bool)) (u : String) :
    ∀ rb ∈ deviceRows rows u, rb ∈ rows := by
  intro rb hrb
  have := List.mem_of_mem_filter hrb
  exact (List.mem_insertionSort RowLeP).mp this

/-- Timestamps of one device's rows are non-decreasing in the order in which
`build_intervals` visits them. -/
theorem deviceRows_times_sorted (rows : List (AlarmRow × Bool)) (u : String) :
    ((deviceRows rows u).map (fun rb => rb.1.fecha)).Pairwise (· ≤ ·) := by
  rw [List.pairwise_map]
  have hp : (deviceRows rows u).Pairwise RowLeP :=
    (sorted_rowLe rows).filter _
  refine hp.imp_of_mem ?_
  intro a b ha hb hle
  have hau := deviceRows_unit rows u a ha
  have hbu := deviceRows_unit rows u b hb
  unfold RowLeP rowLe at hle
  rw [if_pos (hau.trans hbu.symm)] at hle
  exact of_decide_eq_true hle

theorem timeAt_mono {times : List Int} (hs : times.Pairwise (· ≤ ·))
    {i j : Nat} (hij : i ≤ j) (hj : j < times.length) :
    timeAt times i ≤ timeAt times j := by
  rcases Nat.eq_or_lt_of_le hij with rfl | hlt
  · exact le_refl _
  · have hi : i < times.length := lt_trans hlt hj
    rw [timeAt, timeAt, List.getD_eq_getElem _ _ hi, List.getD_eq_getElem _ _ hj]
    exact List.pairwise_iff_getElem.mp hs i j hi hj hlt

theorem timeAt_le_now {times : List Int} {now : Int}
    (hnow : ∀ t ∈ times, t ≤ now) {i : Nat} (hi : i < times.length) :
    timeAt times i ≤ now := by
  rw [timeAt, List.getD_eq_getElem _ _ hi]
  exact hnow _ (List.getElem_mem hi)

/-! ### Properties of the interval-emitting loop -/

theorem emit_mem_fields (ctx : DeviceCtx) (n : Nat) (l : List Nat) :
    ∀ (s : Nat), ∀ r ∈ emit_intervals ctx n l s,
      r.unit = ctx.unit ∧ r.current_time_elapsed = ctx.cte ∧
      r.last_critical_time = ctx.lct ∧ r.last_maintenance_time = ctx.lmt ∧
      (r.event = 0 ∨ r.event = 1) := by
  induction l with
  | nil =>
    intro s r hr
    rw [emit_intervals] at hr
    split at hr
    · rcases List.mem_singleton.mp hr with rfl
      exact ⟨rfl, rfl, rfl, rfl, Or.inl rfl⟩
    · cases hr
  | cons f rest ih =>
    intro s r hr
    rw [emit_intervals] at hr
    split at hr
    · exact ih f r hr
    · rcases List.mem_cons.mp hr with rfl | hr'
      · exact ⟨rfl, rfl, rfl, rfl, Or.inr rfl⟩
      · exact ih f r hr'

theorem emit_count1 (ctx : DeviceCtx) (n : Nat) (l : List Nat) :
    ∀ (s : Nat), (∀ f ∈ l, s < f) → (∀ f ∈ l, f < n) → l.Pairwise (· < ·) → s < n →
      (emit_intervals ctx n l s).countP (fun r => r.event == 1) = l.length := by
  induction l with
  | nil =>
    intro s _ _ _ hs
    rw [emit_intervals, if_pos hs]
    simp [trailing_rec]
  | cons f rest ih =>
    intro s hgt hlt hpw hs
    have hsf : s < f := hgt f (List.mem_cons_self f rest)
    rw [emit_intervals, if_neg (Nat.not_le.mpr hsf)]
    rw [List.countP_cons_of_pos _ _ (by simp [fail_rec])]
    rw [ih f (fun x hx => (List.pairwise_cons.mp hpw).1 x hx)
      (fun x hx => hlt x (List.mem_cons_of_mem f hx))
      (List.pairwise_cons.mp hpw).2 (hlt f (List.mem_cons_self f rest))]
    simp

theorem emit_count0 (ctx : DeviceCtx) (n : Nat) (l : List Nat) :
    ∀ (s : Nat), (∀ f ∈ l, s < f) → (∀ f ∈ l, f < n) → l.Pairwise (· < ·) → s < n →
      (emit_intervals ctx n l s).countP (fun r => r.event == 0) = 1 := by
  induction l with
  | nil =>
    intro s _ _ _ hs
    rw [emit_intervals, if_pos hs]
    simp [trailing_rec]
  | cons f rest ih =>
    intro s hgt hlt hpw hs
    have hsf : s < f := hgt f (List.mem_cons_self f rest)
    rw [emit_intervals, if_neg (Nat.not_le.mpr hsf)]
    rw [List.countP_cons_of_neg _ _ (by simp [fail_rec])]
    exact ih f (fun x hx => (List.pairwise_cons.mp hpw).1 x hx)
      (fun x hx => hlt x (List.mem_cons_of_mem f hx))
      (List.pairwise_cons.mp hpw).2 (hlt f (List.mem_cons_self f rest))

theorem emit_ne_nil (ctx : DeviceCtx) (n : Nat) (l : List Nat) :
    ∀ (s : Nat), (∀ f ∈ l, s < f) → s < n →
      emit_intervals ctx n l s ≠ [] := by
  intro s hgt hs
  cases l with
  | nil => rw [emit_intervals, if_pos hs]; exact List.cons_ne_nil _ _
  | cons f rest =>
    rw [emit_intervals,
      if_neg (Nat.not_le.mpr (hgt f (List.mem_cons_self f rest)))]
    exact List.cons_ne_nil _ _

theorem emit_getLastD (ctx : DeviceCtx) (n : Nat) (l : List Nat) :
    ∀ (s : Nat) (d : IntervalRec), (∀ f ∈ l, s < f) → (∀ f ∈ l, f < n) →
      l.Pairwise (· < ·) → s < n →
      (emit_intervals ctx n l s).getLastD d = trailing_rec ctx n (l.getLastD s) := by
  induction l with
  | nil =>
    intro s d _ _ _ hs
    rw [emit_intervals, if_pos hs]
    rfl
  | cons f rest ih =>
    intro s d hgt hlt hpw hs
    rw [emit_intervals,
      if_neg (Nat.not_le.mpr (hgt f (List.mem_cons_self f rest)))]
    rw [List.getLastD_cons, List.getLastD_cons]
    exact ih f _ (fun x hx => (List.pairwise_cons.mp hpw).1 x hx)
      (fun x hx => hlt x (List.mem_cons_of_mem f hx))
      (List.pairwise_cons.mp hpw).2 (hlt f (List.mem_cons_self f rest))

theorem emit_nonneg (ctx : DeviceCtx) (n : Nat)
    (hlen : ctx.times.length = n)
    (hsorted : ctx.times.Pairwise (· ≤ ·))
    (hnow : ∀ t ∈ ctx.times, t ≤ ctx.now)
    (l : List Nat) :
    ∀ (s : Nat), (∀ f ∈ l, s < f) → (∀ f ∈ l, f < n) → l.Pairwise (· < ·) → s < n →
      ∀ r ∈ emit_intervals ctx n l s, 0 ≤ r.duration_hours ∧ r.start ≤ r.stop := by
  induction l with
  | nil =>
    intro s _ _ _ hs r hr
    rw [emit_intervals, if_pos hs] at hr
    rcases List.mem_singleton.mp hr with rfl
    have h1 : timeAt ctx.times s ≤ ctx.now := timeAt_le_now hnow (hlen ▸ hs)
    constructor
    · show (0 : Rat) ≤ ((ctx.now - timeAt ctx.times s : Int) : Rat) / 3600
      exact div_nonneg (by exact_mod_cast sub_nonneg.mpr h1) (by norm_num)
    · exact h1
  | cons f rest ih =>
    intro s hgt hlt hpw hs r hr
    have hsf : s < f := hgt f (List.mem_cons_self f rest)
    have hfn : f < n := hlt f (List.mem_cons_self f rest)
    rw [emit_intervals, if_neg (Nat.not_le.mpr hsf)] at hr
    rcases List.mem_cons.mp hr with rfl | hr'
    · have h1 : timeAt ctx.times s ≤ timeAt ctx.times f :=
        timeAt_mono hsorted (le_of_lt hsf) (hlen ▸ hfn)
      constructor
      · show (0 : Rat) ≤ ((timeAt ctx.times f - timeAt ctx.times s : Int) : Rat) / 3600
        exact div_nonneg (by exact_mod_cast sub_nonneg.mpr h1) (by norm_num)
      · exact h1
    · exact ih f (fun x hx => (List.pairwise_cons.mp hpw).1 x hx)
        (fun x hx => hlt x (List.mem_cons_of_mem f hx))
        (List.pairwise_cons.mp hpw).2 hfn r hr'

theorem emit_chain (ctx : DeviceCtx) (n : Nat) (l : List Nat) :
    ∀ (s : Nat), (∀ f ∈ l, s < f) → (∀ f ∈ l, f < n) → l.Pairwise (· < ·) → s < n →
      (emit_intervals ctx n l s).Chain' (fun a b => a.stop ≤ b.start) ∧
      (∀ r, (emit_intervals ctx n l s).head? = some r →
        r.start = timeAt ctx.times s) := by
  induction l with
  | nil =>
    intro s _ _ _ hs
    rw [emit_intervals, if_pos hs]
    refine ⟨List.chain'_singleton _, ?_⟩
    intro r hr
    rcases Option.some_inj.mp hr with rfl
    rfl
  | cons f rest ih =>
    intro s hgt hlt hpw hs
    have hsf : s < f := hgt f (List.mem_cons_self f rest)
    have hfn : f < n := hlt f (List.mem_cons_self f rest)
    have ihf := ih f (fun x hx => (List.pairwise_cons.mp hpw).1 x hx)
      (fun x hx => hlt x (List.mem_cons_of_mem f hx))
      (List.pairwise_cons.mp hpw).2 hfn
    rw [emit_intervals, if_neg (Nat.not_le.mpr hsf)]
    constructor
    · rw [List.chain'_cons']
      refine ⟨?_, ihf.1⟩
      intro y hy
      have := ihf.2 y hy
      rw [this]
      show timeAt ctx.times f ≤ timeAt ctx.times f
      exact le_refl _
    · intro r hr
      rcases Option.some_inj.mp hr with rfl
      rfl

/-! ### Per-device and whole-dataframe lemmas -/

theorem failIndices_pairwise (g : List (AlarmRow × Bool)) :
    (failIndices g).Pairwise (· < ·) :=
  (List.pairwise_lt_range g.length).filter _

theorem failIndices_lt (g : List (AlarmRow × Bool)) :
    ∀ i ∈ failIndices g, i < g.length := fun i hi =>
  List.mem_range.mp (List.mem_of_mem_filter hi)

/-- Dispatch on the first failure index: an initial failure index `0` is not
strictly past the starting boundary `0` and is skipped (boundary unchanged);
otherwise every failure index is positive. -/
theorem emit_zero_cases (ctx : DeviceCtx) (n : Nat) (f : Nat) (rest : List Nat)
    (hpw : (f :: rest).Pairwise (· < ·)) :
    (f = 0 ∧ emit_intervals ctx n (f :: rest) 0 = emit_intervals ctx n rest 0 ∧
      ∀ x ∈ rest, 0 < x) ∨
    (0 < f ∧ ∀ x ∈ f :: rest, 0 < x) := by
  by_cases hf : f = 0
  · subst hf
    refine Or.inl ⟨rfl, ?_, fun x hx => (List.pairwise_cons.mp hpw).1 x hx⟩
    rw [emit_intervals, if_pos (le_refl 0)]
  · have hf0 : 0 < f := Nat.pos_of_ne_zero hf
    refine Or.inr ⟨hf0, ?_⟩
    intro x hx
    rcases List.mem_cons.mp hx with rfl | hx'
    · exact hf0
    · exact lt_trans hf0 ((List.pairwise_cons.mp hpw).1 x hx')

theorem build_device_fields (now : Int) (sev_thr : Option Int)
    (maint : List (String × Int)) (u : String) (g : List (AlarmRow × Bool)) :
    ∀ r ∈ build_intervals_device now sev_thr maint u g,
      r.unit = u ∧ r.current_time_elapsed = device_cte now sev_thr maint g ∧
      (r.event = 0 ∨ r.event = 1) := by
  intro r hr
  simp only [build_intervals_device] at hr
  split at hr
  · cases hr
  · split at hr
    · rcases List.mem_singleton.mp hr with rfl
      exact ⟨rfl, rfl, Or.inl rfl⟩
    · have h := emit_mem_fields _ _ _ 0 r hr
      exact ⟨h.1, h.2.1, h.2.2.2.2⟩

theorem build_device_of_nil (now : Int) (sev_thr : Option Int)
    (maint : List (String × Int)) (u : String) :
    build_intervals_device now sev_thr maint u [] = [] := rfl

theorem flatMap_filter_unit (units : List String) (f : String → List IntervalRec)
    (u : String) (hu : ∀ u' ∈ units, ∀ r ∈ f u', r.unit = u')
    (hnd : units.Nodup) :
    (units.flatMap f).filter (fun r => r.unit == u) =
      if u ∈ units then f u else [] := by
  induction units with
  | nil => simp
  | cons v rest ih =>
    have hv : ∀ r ∈ f v, r.unit = v := hu v (List.mem_cons_self v rest)
    have hnd' := (List.nodup_cons.mp hnd).2
    have hu' : ∀ u' ∈ rest, ∀ r ∈ f u', r.unit = u' :=
      fun u' h' => hu u' (List.mem_cons_of_mem v h')
    rw [List.flatMap_cons, List.filter_append, ih hu' hnd']
    by_cases hvu : v = u
    · subst hvu
      have h1 : (f v).filter (fun r => r.unit == v) = f v :=
        List.filter_eq_self.mpr (fun r hr => by simp [hv r hr])
      have hvr : v ∉ rest := (List.nodup_cons.mp hnd).1
      rw [h1, if_neg hvr, if_pos (List.mem_cons_self v rest), List.append_nil]
    · have h1 : (f v).filter (fun r => r.unit == u) = [] :=
        List.filter_eq_nil_iff.mpr (fun r hr hp => hvu ((hv r hr).symm.trans (by simpa using hp)))
      rw [h1, List.nil_append]
      by_cases hur : u ∈ rest
      · rw [if_pos hur, if_pos (List.mem_cons_of_mem v hur)]
      · rw [if_neg hur, if_neg (by
          intro hmem
          rcases List.mem_cons.mp hmem with h | h
          · exact hvu h.symm
          · exact hur h)]

/-- The rows of `build_intervals` that carry device `u` are exactly the rows
the per-device loop built from `u`'s group. -/
theorem build_intervals_filter (now : Int) (sev_thr : Option Int)
    (maint : List (String × Int)) (rows : List (AlarmRow × Bool)) (u : String) :
    (build_intervals now sev_thr maint rows).filter (fun r => r.unit == u) =
      build_intervals_device now sev_thr maint u (deviceRows rows u) := by
  simp only [build_intervals]
  rw [flatMap_filter_unit _ _ u
    (fun u' _ r hr => (build_device_fields now sev_thr maint u' _ r hr).1)
    (List.nodup_dedup _)]
  by_cases hmem : u ∈ ((sortRows rows).map (fun rb => rb.1.dispositivo)).dedup
  · rw [if_pos hmem]
    rfl
  · rw [if_neg hmem]
    have hempty : deviceRows rows u = [] := by
      rw [deviceRows]
      refine List.filter_eq_nil_iff.mpr ?_
      intro rb hrb hp
      exact hmem (List.mem_dedup.mpr (List.mem_map.mpr ⟨rb, hrb, by simpa using hp⟩))
    rw [hempty, build_device_of_nil]

theorem build_device_nonneg (now : Int) (sev_thr : Option Int)
    (maint : List (String × Int)) (u : String) (g : List (AlarmRow × Bool))
    (hsorted : (g.map (fun rb => rb.1.fecha)).Pairwise (· ≤ ·))
    (hnow : ∀ rb ∈ g, rb.1.fecha ≤ now) :
    ∀ r ∈ build_intervals_device now sev_thr maint u g,
      0 ≤ r.duration_hours ∧ r.start ≤ r.stop := by
  have hnow' : ∀ t ∈ g.map (fun rb => rb.1.fecha), t ≤ now := by
    intro t ht
    rcases List.mem_map.mp ht with ⟨rb, hrb, rfl⟩
    exact hnow rb hrb
  intro r hr
  simp only [build_intervals_device] at hr
  by_cases hg : g.length = 0
  · rw [if_pos hg] at hr
    cases hr
  · rw [if_neg hg] at hr
    rcases hfi : failIndices g with _ | ⟨f, rest⟩ <;> simp only [hfi] at hr
    · rcases List.mem_singleton.mp hr with rfl
      have h0 : timeAt (g.map (fun rb => rb.1.fecha)) 0 ≤ now :=
        timeAt_le_now hnow' (by rw [List.length_map]; exact Nat.pos_of_ne_zero hg)
      constructor
      · show (0 : Rat) ≤ ((now - timeAt (g.map (fun rb => rb.1.fecha)) 0 : Int) : Rat) / 3600
        exact div_nonneg (by exact_mod_cast sub_nonneg.mpr h0) (by norm_num)
      · exact h0
    · have hpw : (f :: rest).Pairwise (· < ·) := hfi ▸ failIndices_pairwise g
      have hlt : ∀ x ∈ f :: rest, x < g.length := fun x hx =>
        failIndices_lt g x (hfi ▸ hx)
      have hn : 0 < g.length :=
        lt_of_le_of_lt (Nat.zero_le f) (hlt f (List.mem_cons_self f rest))
      have hlen : (g.map (fun rb => rb.1.fecha)).length = g.length := List.length_map _ _
      rcases emit_zero_cases _ g.length f rest hpw with ⟨_, hemit, hpos⟩ | ⟨_, hpos⟩
      · rw [hemit] at hr
        exact emit_nonneg _ g.length hlen hsorted hnow' rest 0 hpos
          (fun x hx => hlt x (List.mem_cons_of_mem f hx))
          (List.pairwise_cons.mp hpw).2 hn r hr
      · exact emit_nonneg _ g.length hlen hsorted hnow' (f :: rest) 0 hpos hlt hpw hn r hr

theorem build_device_chain (now : Int) (sev_thr : Option Int)
    (maint : List (String × Int)) (u : String) (g : List (AlarmRow × Bool)) :
    (build_intervals_device now sev_thr maint u g).Chain'
      (fun a b => a.stop ≤ b.start) := by
  simp only [build_intervals_device]
  by_cases hg : g.length = 0
  · rw [if_pos hg]
    exact List.chain'_nil
  · rw [if_neg hg]
    rcases hfi : failIndices g with _ | ⟨f, rest⟩ <;> simp only [hfi]
    · exact List.chain'_singleton _
    · have hpw : (f :: rest).Pairwise (· < ·) := hfi ▸ failIndices_pairwise g
      have hlt : ∀ x ∈ f :: rest, x < g.length := fun x hx =>
        failIndices_lt g x (hfi ▸ hx)
      have hn : 0 < g.length :=
        lt_of_le_of_lt (Nat.zero_le f) (hlt f (List.mem_cons_self f rest))
      rcases emit_zero_cases _ g.length f rest hpw with ⟨_, hemit, hpos⟩ | ⟨_, hpos⟩
      · rw [hemit]
        exact (emit_chain _ g.length rest 0 hpos
          (fun x hx => hlt x (List.mem_cons_of_mem f hx))
          (List.pairwise_cons.mp hpw).2 hn).1
      · exact (emit_chain _ g.length (f :: rest) 0 hpos hlt hpw hn).1

/-- C2: row counts per device.  Failure indices ascend from a boundary that
starts at `0` and moves to every visited index, so "strictly past the current
boundary" holds exactly for the positive failure indices; the one possible
skipped candidate is an initial failure at index `0`.  With at least one
failure-flagged event, the device's rows are one `event=1` row per positive
failure index plus exactly one trailing `event=0` row ending at `now`; a
device with zero events contributes no rows at all. -/
theorem c2_build_intervals_row_counts (now : Int) (sev_thr : Option Int)
    (maint : List (String × Int)) (rows : List (AlarmRow × Bool)) (u : String) :
    (deviceRows rows u = [] →
      (build_intervals now sev_thr maint rows).filter (fun r => r.unit == u) = []) ∧
    (failIndices (deviceRows rows u) ≠ [] →
      ((build_intervals now sev_thr maint rows).filter (fun r => r.unit == u)).countP
          (fun r => r.event == 1) =
        ((failIndices (deviceRows rows u)).filter (fun i => decide (0 < i))).length ∧
      ((build_intervals now sev_thr maint rows).filter (fun r => r.unit == u)).countP
          (fun r => r.event == 0) = 1 ∧
      (build_intervals now sev_thr maint rows).filter (fun r => r.unit == u) ≠ [] ∧
      ∀ d, (((build_intervals now sev_thr maint rows).filter
              (fun r => r.unit == u)).getLastD d).event = 0 ∧
        (((build_intervals now sev_thr maint rows).filter
            (fun r => r.unit == u)).getLastD d).stop = now) := by
  rw [build_intervals_filter now sev_thr maint rows u]
  constructor
  · intro h
    rw [h, build_device_of_nil]
  · intro hk
    have hgne : deviceRows rows u ≠ [] := by
      intro h
      exact hk (by rw [h]; rfl)
    have hglen : deviceRows rows u ≠ [] → (deviceRows rows u).length ≠ 0 :=
      fun h hl => h (List.length_eq_zero.mp hl)
    simp only [build_intervals_device, if_neg (hglen hgne)]
    rcases hfi : failIndices (deviceRows rows u) with _ | ⟨f, rest⟩
    · exact absurd hfi hk
    · simp only
      have hpw : (f :: rest).Pairwise (· < ·) := hfi ▸ failIndices_pairwise _
      have hlt : ∀ x ∈ f :: rest, x < (deviceRows rows u).length := fun x hx =>
        failIndices_lt _ x (hfi ▸ hx)
      have hn : 0 < (deviceRows rows u).length :=
        lt_of_le_of_lt (Nat.zero_le f) (hlt f (List.mem_cons_self f rest))
      rcases emit_zero_cases _ (deviceRows rows u).length f rest hpw with
        ⟨hf0, hemit, hpos⟩ | ⟨hf0, hpos⟩
      · subst hf0
        rw [hemit]
        have hlt' : ∀ x ∈ rest, x < (deviceRows rows u).length :=
          fun x hx => hlt x (List.mem_cons_of_mem 0 hx)
        have hpw' := (List.pairwise_cons.mp hpw).2
        refine ⟨?_, emit_count0 _ _ rest 0 hpos hlt' hpw' hn,
          emit_ne_nil _ _ rest 0 hpos hn, ?_⟩
        · rw [emit_count1 _ _ rest 0 hpos hlt' hpw' hn]
          rw [List.filter_cons_of_neg (by decide)]
          rw [List.filter_eq_self.mpr (fun x hx => decide_eq_true (hpos x hx))]
        · intro d
          rw [emit_getLastD _ _ rest 0 d hpos hlt' hpw' hn]
          exact ⟨rfl, rfl⟩
      · refine ⟨?_, emit_count0 _ _ (f :: rest) 0 hpos hlt hpw hn,
          emit_ne_nil _ _ (f :: rest) 0 hpos hn, ?_⟩
        · rw [emit_count1 _ _ (f :: rest) 0 hpos hlt hpw hn]
          rw [List.filter_eq_self.mpr (fun x hx => decide_eq_true (hpos x hx))]
        · intro d
          rw [emit_getLastD _ _ (f :: rest) 0 d hpos hlt hpw hn]
          exact ⟨rfl, rfl⟩

/-- C8 (amended): provided every event timestamp is at or before the build
timestamp `now`, every emitted row has non-negative duration and `end ≥ start`,
and the rows of any one device are chronologically ordered and non-overlapping
(each row ends no later than the next row of the same device starts). -/
theorem c8_interval_geometry (now : Int) (sev_thr : Option Int)
    (maint : List (String × Int)) (rows : List (AlarmRow × Bool))
    (hnow : ∀ rb ∈ rows, rb.1.fecha ≤ now) :
    (∀ r ∈ build_intervals now sev_thr maint rows,
      0 ≤ r.duration_hours ∧ r.start ≤ r.stop) ∧
    (∀ u, ((build_intervals now sev_thr maint rows).filter
        (fun r => r.unit == u)).Chain' (fun a b => a.stop ≤ b.start)) := by
  constructor
  · intro r hr
    simp only [build_intervals] at hr
    rw [List.mem_flatMap] at hr
    obtain ⟨u, _, hr⟩ := hr
    refine build_device_nonneg now sev_thr maint u _ ?_ ?_ r hr
    · exact deviceRows_times_sorted rows u
    · intro rb hrb
      exact hnow rb (deviceRows_sublist_rows rows u rb hrb)
  · intro u
    rw [build_intervals_filter]
    exact build_device_chain now sev_thr maint u _

/-- C9: every row of one build pass carries the device-level
`current_time_elapsed`, a single value computed per device from the later of
last maintenance and last critical alarm (with the source's fallbacks), as
`(now − baseline)` in hours. -/
theorem c9_current_time_elapsed (now : Int) (sev_thr : Option Int)
    (maint : List (String × Int)) (rows : List (AlarmRow × Bool)) :
    (∀ r ∈ build_intervals now sev_thr maint rows,
      r.current_time_elapsed = device_cte now sev_thr maint (deviceRows rows r.unit)) ∧
    (∀ m c : Int, current_elapsed_of now (some m) (some c) =
      ((now - max m c : Int) : Rat) / 3600) := by
  constructor
  · intro r hr
    simp only [build_intervals] at hr
    rw [List.mem_flatMap] at hr
    obtain ⟨u, _, hr⟩ := hr
    have h := build_device_fields now sev_thr maint u _ r hr
    rw [h.1]
    exact h.2.1
  · intro m c
    rfl

/-- Closed instance of `c2_build_intervals_row_counts`. -/
theorem c2_build_intervals_row_counts_witness :
    failIndices (deviceRows c2rows "D") ≠ [] ∧
    ((build_intervals 100000 (some 6) [] c2rows).filter (fun r => r.unit == "D")).countP
      (fun r => r.event == 1) = 2 ∧
    ((build_intervals 100000 (some 6) [] c2rows).filter (fun r => r.unit == "D")).countP
      (fun r => r.event == 0) = 1 := by
  have h := (c2_build_intervals_row_counts 100000 (some 6) [] c2rows "D").2 (by decide)
  refine ⟨by decide, ?_, h.2.1⟩
  rw [h.1]
  decide

/-- Closed instance of `c8_interval_geometry`. -/
theorem c8_interval_geometry_witness :
    (∀ rb ∈ c8rows, rb.1.fecha ≤ (10000 : Int)) ∧
    ∀ r ∈ build_intervals 10000 (some 5) [("sA", 30)] c8rows,
      0 ≤ r.duration_hours ∧ r.start ≤ r.stop :=
  ⟨by decide, (c8_interval_geometry 10000 (some 5) [("sA", 30)] c8rows (by decide)).1⟩

/-- C8 counterexample (against the unconditional claim): a device whose single
event is time-stamped after the build timestamp `now` (future-dated data)
yields a trailing censored interval with `end < start` and a negative
duration, so the claim's unconditional `duration_hours ≥ 0` and `end ≥ start`
fail at this input. -/
theorem c8_counterexample :
    (build_intervals 0 none [] [(⟨"d", 7200, none, 1, none⟩, false)]).map
      (fun r => (r.start, r.stop, r.duration_hours)) = [(7200, 0, -2)] ∧
    ¬ ((0 : Int) ≥ 7200) ∧ ¬ ((0 : Rat) ≤ -2) := by
  refine ⟨by with_unfolding_all decide, by decide, by decide⟩

/-- Closed instance of `c9_current_time_elapsed`. -/
theorem c9_current_time_elapsed_witness :
    (build_intervals 5000 (some 3) [("s1", 100)] c9rows).length = 2 ∧
    ((build_intervals 5000 (some 3) [("s1", 100)] c9rows).headD dummy_rec).current_time_elapsed =
      device_cte 5000 (some 3) [("s1", 100)]
        (deviceRows c9rows
          ((build_intervals 5000 (some 3) [("s1", 100)] c9rows).headD dummy_rec).unit) := by
  have hlen : (build_intervals 5000 (some 3) [("s1", 100)] c9rows).length = 2 := by decide
  refine ⟨hlen, ?_⟩
  rcases hL : build_intervals 5000 (some 3) [("s1", 100)] c9rows with _ | ⟨r0, rest⟩
  · rw [hL] at hlen
    cases hlen
  · have hmem : r0 ∈ build_intervals 5000 (some 3) [("s1", 100)] c9rows := by
      rw [hL]
      exact List.mem_cons_self r0 rest
    exact (c9_current_time_elapsed 5000 (some 3) [("s1", 100)] c9rows).1 r0 hmem

/-- C4 (amended): `train_model` returns an error exactly when a precondition
is unmet — fewer than 10 interval rows, fewer than 3 `event=1` rows, or zero
variance in `duration_hours` — OR when `time_since_last_alarm_h` is missing
in every row: the median imputer then drops that all-missing column and the
DataFrame reconstruction with the three feature names raises, before the
precondition checks even run.  In all remaining cases it returns the fitted
model (the external fit applied to the imputed feature matrix and the
event/duration pairs) together with the fixed feature list. -/
theorem c4_train_model_preconditions
    (fit : List (List Rat) → List (Bool × Rat) → SurvModel)
    (intervals : List IntervalRec) :
    ((∃ e, train_model fit intervals = .error e) ↔
      (intervals.length < 10 ∨
       ((intervals.map (fun r => r.event != 0)).filter id).length < 3 ∨
       listVariance (intervals.map (fun r => r.duration_hours)) = 0 ∨
       (∀ r ∈ intervals, r.time_since_last_alarm_h = none))) ∧
    (¬ (intervals.length < 10 ∨
        ((intervals.map (fun r => r.event != 0)).filter id).length < 3 ∨
        listVariance (intervals.map (fun r => r.duration_hours)) = 0 ∨
        (∀ r ∈ intervals, r.time_since_last_alarm_h = none)) →
      train_model fit intervals =
        .ok (fit (imputedRows intervals)
          ((intervals.map (fun r => r.event != 0)).zip
            (intervals.map (fun r => r.duration_hours))), features)) := by
  by_cases h2 : ∀ r ∈ intervals, r.time_since_last_alarm_h = none
  · have herr : ∃ e, train_model fit intervals = .error e := by
      simp only [train_model, imputedMatrix, if_pos h2]
      by_cases h1 : intervals.length = 0
      · rw [if_pos h1]
        exact ⟨_, rfl⟩
      · rw [if_neg h1]
        exact ⟨_, rfl⟩
    constructor
    · exact iff_of_true herr (Or.inr (Or.inr (Or.inr h2)))
    · intro hok
      exact absurd (Or.inr (Or.inr (Or.inr h2))) hok
  · constructor
    · simp only [train_model, imputedMatrix, if_neg h2]
      split_ifs with h1 h3 h4 h5 h6
      · exact iff_of_true ⟨_, rfl⟩ (Or.inl (by omega))
      · exact iff_of_true ⟨_, rfl⟩ (Or.inr (Or.inl (by omega)))
      · exact iff_of_true ⟨_, rfl⟩ (Or.inr (Or.inl h4))
      · exact iff_of_true ⟨_, rfl⟩ (Or.inl h5)
      · exact iff_of_true ⟨_, rfl⟩ (Or.inr (Or.inr (Or.inl h6)))
      · refine iff_of_false ?_ ?_
        · rintro ⟨e, he⟩
          cases he
        · rintro (h | h | h | h)
          · exact h5 h
          · exact h4 h
          · exact h6 h
          · exact h2 h
    · intro hok
      simp only [train_model, imputedMatrix, if_neg h2]
      split_ifs with h1 h3 h4 h5 h6
      · exact absurd (Or.inl (by omega)) hok
      · exact absurd (Or.inr (Or.inl (by omega))) hok
      · exact absurd (Or.inr (Or.inl h4)) hok
      · exact absurd (Or.inl h5) hok
      · exact absurd (Or.inr (Or.inr (Or.inl h6))) hok
      · rfl

/-- Closed instance of `c4_train_model_preconditions`: on a ten-row training
set with three events, non-degenerate durations, and some
`time_since_last_alarm_h` values present, training succeeds. -/
theorem c4_train_model_preconditions_witness :
    ¬ (c4intervals.length < 10 ∨
       ((c4intervals.map (fun r => r.event != 0)).filter id).length < 3 ∨
       listVariance (c4intervals.map (fun r => r.duration_hours)) = 0 ∨
       (∀ r ∈ c4intervals, r.time_since_last_alarm_h = none)) ∧
    (train_model c4fit c4intervals).toOption.isSome = true := by
  have hc : ¬ (c4intervals.length < 10 ∨
      ((c4intervals.map (fun r => r.event != 0)).filter id).length < 3 ∨
      listVariance (c4intervals.map (fun r => r.duration_hours)) = 0 ∨
      (∀ r ∈ c4intervals, r.time_since_last_alarm_h = none)) := by
    with_unfolding_all decide
  refine ⟨hc, ?_⟩
  rw [(c4_train_model_preconditions c4fit c4intervals).2 hc]
  rfl

/-- C4 counterexample (against the claim as stated): ten interval rows, three
`event=1` rows and non-degenerate durations — every precondition named by the
claim holds — yet `time_since_last_alarm_h` is missing in all rows, so
`SimpleImputer` drops the all-missing column and the DataFrame reconstruction
with three column names raises a `ValueError`: `train_model` errors where the
claim requires a fitted model. -/
theorem c4_counterexample :
    ¬ (c4allmissing.length < 10 ∨
       ((c4allmissing.map (fun r => r.event != 0)).filter id).length < 3 ∨
       listVariance (c4allmissing.map (fun r => r.duration_hours)) = 0) ∧
    (∃ e, train_model c4fit c4allmissing = .error e) := by
  refine ⟨by with_unfolding_all decide, ⟨_, rfl⟩⟩

theorem firstThresholdHit_spec (sf : StepFn) (thr : Rat) (pts : List Rat) :
    (∀ i : Nat, i < pts.length → thr ≤ riskAt sf (pts.getD i 0) →
      (∀ j : Nat, j < i → riskAt sf (pts.getD j 0) < thr) →
      firstThresholdHit sf thr pts = some (pts.getD i 0)) ∧
    ((∀ i : Nat, i < pts.length → riskAt sf (pts.getD i 0) < thr) →
      firstThresholdHit sf thr pts = none) := by
  induction pts with
  | nil =>
    exact ⟨fun i hi => absurd hi (Nat.not_lt_zero i), fun _ => rfl⟩
  | cons t rest ih =>
    constructor
    · intro i hi hhit hbefore
      cases i with
      | zero =>
        have hhit' : thr ≤ riskAt sf t := by simpa using hhit
        rw [firstThresholdHit, if_pos hhit']
        simp
      | succ k =>
        have ht : riskAt sf t < thr := by
          have := hbefore 0 (Nat.succ_pos k)
          simpa using this
        rw [firstThresholdHit, if_neg (not_le.mpr ht)]
        have hk := ih.1 k (Nat.lt_of_succ_lt_succ hi)
          (by simpa using hhit)
          (fun j hj => by simpa using hbefore (j + 1) (Nat.succ_lt_succ hj))
        simpa using hk
    · intro hall
      have ht : riskAt sf t < thr := by simpa using hall 0 (Nat.succ_pos _)
      rw [firstThresholdHit, if_neg (not_le.mpr ht)]
      exact ih.2 (fun i hi => by
        simpa using hall (i + 1) (Nat.succ_lt_succ hi))

theorem linspace_length (a b : Rat) (n : Nat) : (linspace a b n).length = n := by
  rw [linspace]
  split_ifs with h0 h1
  · simp [h0]
  · simp [h1]
  · simp

theorem linspace_getD (a b : Rat) (n i : Nat) (h2 : 2 ≤ n) (hi : i < n) :
    (linspace a b n).getD i 0 = a + (b - a) * (i : Rat) / ((n - 1 : Nat) : Rat) := by
  rw [linspace, if_neg (by omega), if_neg (by omega)]
  have hlen : i < ((List.range n).map
      (fun (i : Nat) => a + (b - a) * (i : Rat) / ((n - 1 : Nat) : Rat))).length := by
    simpa using hi
  rw [List.getD_eq_getElem _ _ hlen, List.getElem_map, List.getElem_range]

/-- C5: `predict_risk` for a known device returns the first of the 500 equally
spaced samples of `[current_time_elapsed, current_time_elapsed + max_time]`
whose interpolated risk reaches the threshold, with `time_to_threshold`
relative to `current_time_elapsed`; if no sample reaches it, the sentinel
`time_to_threshold = max_time` with the boundary risk is returned instead of
an error.  The last conjunct identifies sample `i` as
`current_time_elapsed + max_time·i/499`. -/
theorem c5_predict_risk_first_hit (model : SurvModel) (intervals : List IntervalRec)
    (device : String) (thr max_time : Rat) (latest : IntervalRec)
    (hlast : (intervals.filter (fun r => r.unit == device)).getLast? = some latest) :
    (∀ i : Nat, i < 500 →
      thr ≤ riskAt (model (predict_feature_row latest))
        ((linspace latest.current_time_elapsed
          (latest.current_time_elapsed + max_time) 500).getD i 0) →
      (∀ j : Nat, j < i →
        riskAt (model (predict_feature_row latest))
          ((linspace latest.current_time_elapsed
            (latest.current_time_elapsed + max_time) 500).getD j 0) < thr) →
      predict_risk model intervals device thr max_time =
        some ⟨(linspace latest.current_time_elapsed
            (latest.current_time_elapsed + max_time) 500).getD i 0
              - latest.current_time_elapsed,
          riskAt (model (predict_feature_row latest))
            ((linspace latest.current_time_elapsed
              (latest.current_time_elapsed + max_time) 500).getD i 0),
          latest.current_time_elapsed⟩) ∧
    ((∀ i : Nat, i < 500 →
        riskAt (model (predict_feature_row latest))
          ((linspace latest.current_time_elapsed
            (latest.current_time_elapsed + max_time) 500).getD i 0) < thr) →
      predict_risk model intervals device thr max_time =
        some ⟨max_time,
          riskAt (model (predict_feature_row latest))
            (latest.current_time_elapsed + max_time),
          latest.current_time_elapsed⟩) ∧
    (linspace latest.current_time_elapsed
      (latest.current_time_elapsed + max_time) 500).length = 500 ∧
    (∀ i : Nat, i < 500 →
      (linspace latest.current_time_elapsed
        (latest.current_time_elapsed + max_time) 500).getD i 0 =
      latest.current_time_elapsed + max_time * (i : Rat) / 499) := by
  have hspec := firstThresholdHit_spec (model (predict_feature_row latest)) thr
    (linspace latest.current_time_elapsed (latest.current_time_elapsed + max_time) 500)
  have hlen : (linspace latest.current_time_elapsed
      (latest.current_time_elapsed + max_time) 500).length = 500 :=
    linspace_length _ _ 500
  refine ⟨?_, ?_, hlen, ?_⟩
  · intro i hi hhit hbefore
    simp only [predict_risk, hlast]
    rw [hspec.1 i (by rw [hlen]; exact hi) hhit hbefore]
  · intro hall
    simp only [predict_risk, hlast]
    rw [hspec.2 (fun i hi => hall i (by rw [hlen] at hi; exact hi))]
  · intro i hi
    rw [linspace_getD _ _ 500 i (by norm_num) hi]
    have h499 : ((500 - 1 : Nat) : Rat) = 499 := by norm_num
    rw [h499,
      show latest.current_time_elapsed + max_time - latest.current_time_elapsed
        = max_time by ring]

set_option maxRecDepth 8000 in
/-- Closed instance of `c5_predict_risk_first_hit`: the first sample (index 0)
hits the 0.8 threshold, so the prediction is at `time_to_threshold = 0` with
risk 1. -/
theorem c5_predict_risk_first_hit_witness :
    predict_risk c5model c5ivs "d" (4 / 5) 100 = some ⟨0, 1, 0⟩ := by
  have h := (c5_predict_risk_first_hit c5model c5ivs "d" (4 / 5) 100 c5latest
      (by with_unfolding_all decide)).1 0 (by norm_num)
    (by with_unfolding_all decide)
    (fun j hj => absurd hj (Nat.not_lt_zero j))
  rw [h]
  with_unfolding_all decide

theorem interpSegments_bounds (t : Rat) :
    ∀ (pts : List (Rat × Rat)),
      (pts.map (fun p => p.1)).Pairwise (· ≤ ·) →
      (∀ p ∈ pts, 0 ≤ p.2 ∧ p.2 ≤ 1) →
      (∀ p0 ∈ pts.head?, p0.1 ≤ t) →
      0 ≤ interpSegments t pts ∧ interpSegments t pts ≤ 1
  | [], _, _, _ => by rw [interpSegments]; norm_num
  | [(x, y)], _, hy, _ => by
    rw [interpSegments]
    exact hy (x, y) (List.mem_singleton.mpr rfl)
  | (x1, y1) :: (x2, y2) :: rest, hx, hy, hhead => by
    rw [interpSegments]
    by_cases hlt : t < x2
    · rw [if_pos hlt, mul_div_assoc]
      have hx1t : x1 ≤ t := hhead (x1, y1) rfl
      have hx12 : x1 < x2 := lt_of_le_of_lt hx1t hlt
      have hy1 := hy (x1, y1) (List.mem_cons_self _ _)
      have hy2 := hy (x2, y2) (List.mem_cons_of_mem _ (List.mem_cons_self _ _))
      have hr0 : 0 ≤ (t - x1) / (x2 - x1) :=
        div_nonneg (sub_nonneg.mpr hx1t) (le_of_lt (sub_pos.mpr hx12))
      have hr1 : (t - x1) / (x2 - x1) ≤ 1 := by
        rw [div_le_one (sub_pos.mpr hx12)]
        exact sub_le_sub_right (le_of_lt hlt) x1
      constructor
      · nlinarith [mul_nonneg (sub_nonneg.mpr hr1) hy1.1, mul_nonneg hr0 hy2.1,
          mul_nonneg hr0 hy1.1]
      · nlinarith [mul_nonneg (sub_nonneg.mpr hr1) (sub_nonneg.mpr hy1.2),
          mul_nonneg hr0 (sub_nonneg.mpr hy2.2)]
    · rw [if_neg hlt]
      refine interpSegments_bounds t ((x2, y2) :: rest) ?_ ?_ ?_
      · exact (List.pairwise_cons.mp hx).2
      · exact fun p hp => hy p (List.mem_cons_of_mem _ hp)
      · intro p0 hp0
        rcases Option.mem_def.mp hp0 with h
        cases h
        exact not_lt.mp hlt

theorem npInterp_bounds (t : Rat) (pts : List (Rat × Rat))
    (hx : (pts.map (fun p => p.1)).Pairwise (· ≤ ·))
    (hy : ∀ p ∈ pts, 0 ≤ p.2 ∧ p.2 ≤ 1) :
    0 ≤ npInterp t pts 1 ∧ npInterp t pts 1 ≤ 1 := by
  rcases pts with _ | ⟨⟨x0, y0⟩, rest⟩
  · rw [npInterp]
    norm_num
  · rw [npInterp]
    by_cases h : t < x0
    · rw [if_pos h]
      norm_num
    · rw [if_neg h]
      refine interpSegments_bounds t ((x0, y0) :: rest) hx hy ?_
      intro p0 hp0
      rcases Option.mem_def.mp hp0 with hh
      cases hh
      exact not_lt.mp h

theorem linspace_pairwise (a b : Rat) (n : Nat) (hab : a ≤ b) :
    (linspace a b n).Pairwise (· ≤ ·) := by
  rw [linspace]
  split_ifs with h0 h1
  · exact List.Pairwise.nil
  · exact List.pairwise_singleton _ _
  · refine (List.pairwise_lt_range n).map _ ?_
    intro i j hij
    have hcast : (i : Rat) ≤ (j : Rat) := Nat.cast_le.mpr (le_of_lt hij)
    have hnn : (0 : Rat) ≤ b - a := sub_nonneg.mpr hab
    have hden : (0 : Rat) < ((n - 1 : Nat) : Rat) :=
      Nat.cast_pos.mpr (by omega)
    exact add_le_add_left
      ((div_le_div_right hden).mpr (mul_le_mul_of_nonneg_left hcast hnn)) a

theorem linspace_map_getD (f : Rat → Rat) (a b : Rat) (n i : Nat)
    (hi : i < n) (d : Rat) :
    ((linspace a b n).map f).getD i d = f ((linspace a b n).getD i 0) := by
  have h1 : i < (linspace a b n).length := by rw [linspace_length]; exact hi
  have h2 : i < ((linspace a b n).map f).length := by simpa using h1
  rw [List.getD_eq_getElem _ _ h2, List.getElem_map, List.getD_eq_getElem _ _ h1]

/-- C10 (amended): for a known device and a trained model, with `nPoints ≥ 2`,
`maxTime ≥ 0`, and a well-formed survival step function (ascending
breakpoints, probabilities within [0,1]), `get_survival_curve` returns exactly
`nPoints` entries whose elapsed-day coordinates are non-decreasing, starting
at `0` and ending at `maxTime/24`, with every risk on the 0-100 percent
scale. -/
theorem c10_get_survival_curve_shape (model : SurvModel) (intervals : List IntervalRec)
    (device : String) (max_time : Rat) (n_points : Nat) (latest : IntervalRec)
    (hlast : (intervals.filter (fun r => r.unit == device)).getLast? = some latest)
    (hn : 2 ≤ n_points) (hmt : 0 ≤ max_time)
    (hx : ((model (curve_feature_row latest)).pts.map (fun p => p.1)).Pairwise (· ≤ ·))
    (hy : ∀ p ∈ (model (curve_feature_row latest)).pts, 0 ≤ p.2 ∧ p.2 ≤ 1) :
    ∃ L, get_survival_curve model intervals device max_time n_points = some L ∧
      L.length = n_points ∧
      (L.map (fun p => p.tiempo_dias)).Chain' (· ≤ ·) ∧
      (L.map (fun p => p.tiempo_dias)).getD 0 0 = 0 ∧
      (L.map (fun p => p.tiempo_dias)).getD (n_points - 1) 0 = max_time / 24 ∧
      (∀ p ∈ L, 0 ≤ p.riesgo_porcentaje ∧ p.riesgo_porcentaje ≤ 100) := by
  refine ⟨(linspace 0 max_time n_points).map (fun t =>
      ⟨t / 24, (1 - npInterp (t + latest.current_time_elapsed)
        (model (curve_feature_row latest)).pts 1) * 100⟩), ?_, ?_, ?_, ?_, ?_, ?_⟩
  · simp only [get_survival_curve, hlast]
  · simp [linspace_length]
  · rw [List.map_map]
    refine List.Pairwise.chain' ?_
    refine (linspace_pairwise 0 max_time n_points hmt).map _ ?_
    intro s u hsu
    show s / 24 ≤ u / 24
    exact (div_le_div_right (by norm_num)).mpr hsu
  · rw [List.map_map, linspace_map_getD _ 0 max_time n_points 0 (by omega) 0]
    show (linspace 0 max_time n_points).getD 0 0 / 24 = 0
    rw [linspace_getD 0 max_time n_points 0 hn (by omega)]
    simp
  · rw [List.map_map,
      linspace_map_getD _ 0 max_time n_points (n_points - 1) (by omega) 0]
    show (linspace 0 max_time n_points).getD (n_points - 1) 0 / 24 = max_time / 24
    rw [linspace_getD 0 max_time n_points (n_points - 1) hn (by omega)]
    have hc : ((n_points - 1 : Nat) : Rat) ≠ 0 := Nat.cast_ne_zero.mpr (by omega)
    rw [sub_zero, zero_add, mul_div_assoc, div_self hc, mul_one]
  · intro p hp
    rcases List.mem_map.mp hp with ⟨s, _, rfl⟩
    have hb := npInterp_bounds (s + latest.current_time_elapsed)
      (model (curve_feature_row latest)).pts hx hy
    constructor
    · show 0 ≤ (1 - npInterp (s + latest.current_time_elapsed)
        (model (curve_feature_row latest)).pts 1) * 100
      nlinarith [hb.2]
    · show (1 - npInterp (s + latest.current_time_elapsed)
        (model (curve_feature_row latest)).pts 1) * 100 ≤ 100
      nlinarith [hb.1]

/-- Closed instance of `c10_get_survival_curve_shape`: three requested points
produce exactly three entries. -/
theorem c10_get_survival_curve_shape_witness :
    (get_survival_curve c10model c10ivs "d" 48 3).map (fun L => L.length) = some 3 := by
  obtain ⟨L, hL, hlen, _⟩ := c10_get_survival_curve_shape c10model c10ivs "d" 48 3
    c10latest (by with_unfolding_all decide) (by norm_num) (by norm_num)
    (by simp [c10model]) (by with_unfolding_all decide)
  rw [hL]
  simp [hlen]

/-- C10 counterexample (against the unconditional claim): with `nPoints = 1`
and `maxTime = 24` the curve is a single entry at elapsed-day coordinate `0`
(`np.linspace(0, maxTime, 1)` is `[0]`), so the last entry does not sit at
`maxTime/24 = 1`. -/
theorem c10_counterexample :
    (get_survival_curve c10model c10ivs "d" 24 1).map
      (fun L => L.map (fun p => p.tiempo_dias)) = some [0] ∧
    (24 : Rat) / 24 = 1 ∧ (0 : Rat) ≠ 1 := by
  refine ⟨?_, by norm_num, by norm_num⟩
  with_unfolding_all decide

/-- C7: a `refresh()` arriving while `_is_updating` is set executes nothing of
the pipeline and leaves the state — cache, every field, including
`last_update` — unchanged, while a refresh entering with the flag clear
executes exactly one pipeline; so of two overlapping refreshes (the second
arriving after the first set the flag) exactly one pipeline runs. -/
theorem c7_refresh_single_flight (env : Env) (now : Int) (s : PreState) :
    (s.is_updating = true → refresh_all_data env now s = (s, false)) ∧
    (s.is_updating = false → (refresh_all_data env now s).2 = true) ∧
    refresh_all_data env now { cached := s.cached, is_updating := true } =
      ({ cached := s.cached, is_updating := true }, false) := by
  refine ⟨?_, ?_, ?_⟩
  · intro h
    rw [refresh_all_data, if_pos h]
  · intro h
    rw [refresh_all_data, if_neg (by simp [h])]
    cases hrp : run_pipeline env now <;> simp
  · rfl

/-- Closed instance of `c7_refresh_single_flight`. -/
theorem c7_refresh_single_flight_witness :
    refresh_all_data c7env 0 ⟨initial_cache, true⟩ = (⟨initial_cache, true⟩, false) :=
  (c7_refresh_single_flight c7env 0 ⟨initial_cache, true⟩).1 rfl

/-- C1 (amended): when any external stage of the pipeline raises, the
previously published snapshot is retained unmodified (all fields, including
`last_update`); but when the external stages succeed and only training fails
its validation preconditions, the `ValueError` is caught inside `refresh` and
a NEW snapshot is published: data, intervals and lookup dicts are replaced,
`last_update` is refreshed, and `model`/`features` are `None`. -/
theorem c1_refresh_failure_semantics (env : Env) (now : Int) (s : PreState)
    (hu : s.is_updating = false) :
    (∀ e, run_pipeline env now = .error e →
      (refresh_all_data env now s).1.cached = s.cached) ∧
    (∀ df_raw df_processed mtto,
      env.get_all_alarms = .ok df_raw →
      env.process_data df_raw = .ok df_processed →
      env.get_mantenimientos df_raw = .ok mtto →
      ∀ e, train_model env.fit
          (build_intervals now env.sev_thr mtto.maintenance_dict
            (df_processed.zip (detect_failures df_processed env.sev_thr))) = .error e →
      (refresh_all_data env now s).1.cached =
        { df_raw := some df_raw,
          df_processed := some (df_processed.zip (detect_failures df_processed env.sev_thr)),
          intervals := some (build_intervals now env.sev_thr mtto.maintenance_dict
            (df_processed.zip (detect_failures df_processed env.sev_thr))),
          model := none, features := none,
          maintenance_dict := some mtto.maintenance_dict,
          brand_dict := some mtto.brand_dict,
          model_dict := some mtto.model_dict,
          client_dict := some mtto.client_dict,
          last_update := some now }) := by
  constructor
  · intro e he
    rw [refresh_all_data, if_neg (by simp [hu]), he]
  · intro df_raw df_processed mtto h1 h2 h3 e htrain
    rw [refresh_all_data, if_neg (by simp [hu])]
    have hrp : run_pipeline env now =
        .ok { df_raw := some df_raw,
              df_processed := some (df_processed.zip (detect_failures df_processed env.sev_thr)),
              intervals := some (build_intervals now env.sev_thr mtto.maintenance_dict
                (df_processed.zip (detect_failures df_processed env.sev_thr))),
              model := none, features := none,
              maintenance_dict := some mtto.maintenance_dict,
              brand_dict := some mtto.brand_dict,
              model_dict := some mtto.model_dict,
              client_dict := some mtto.client_dict,
              last_update := some now } := by
      simp only [run_pipeline, h1, h2, h3, htrain]
    rw [hrp]

/-- Closed instance of `c1_refresh_failure_semantics`: a failing BigQuery pull
leaves the prior snapshot in place. -/
theorem c1_refresh_failure_semantics_witness :
    run_pipeline c1errenv 7 = .error "bigquery down" ∧
    (refresh_all_data c1errenv 7 ⟨c1prior, false⟩).1.cached = c1prior :=
  ⟨rfl, (c1_refresh_failure_semantics c1errenv 7 ⟨c1prior, false⟩ rfl).1
    "bigquery down" rfl⟩

/-- C1 counterexample (against the claim as stated): a refresh whose external
stages succeed but whose training fails its validation preconditions (here:
zero intervals) does not retain the previous snapshot — it publishes a new
snapshot with `model = None` and a fresh `last_update`. -/
theorem c1_counterexample :
    (∃ e, train_model c1fit (build_intervals 100 (some 6) [] []) = .error e) ∧
    (refresh_all_data c1env 100 ⟨c1prior, false⟩).1.cached.last_update = some 100 ∧
    c1prior.last_update = some 5 ∧
    (refresh_all_data c1env 100 ⟨c1prior, false⟩).1.cached.model = none ∧
    c1prior.model.isSome = true := by
  exact ⟨⟨"No hay intervalos para entrenar", rfl⟩, rfl, rfl, rfl, rfl⟩
